import Mathlib

/-!
Shallow embedding of the quant-train repository (llm_pretrain.py, train_utils.py)
and proofs of the specification claims about it.

Modelling conventions:
- Python floats are modelled as rationals; the two transcendental values the code
  uses (math.cos of progress times math.pi) are abstracted into a parameter
  cosPi so that no claim depends on their values.
- Python exceptions are modelled with Except PyErr; the spec taxonomy name
  ConfigurationError corresponds to Python ValueError / failed asserts raised
  during configuration, and its DivisionError-equivalent to ZeroDivisionError.
- Tensors are modelled as lists (a 2-d tensor as a list of rows).
-/

/-- Python exception outcomes relevant to the embedded code. `valueError` is what
the spec taxonomy calls ConfigurationError when raised for configuration input;
`assertionError` models a failed Python assert. -/
inductive PyErr where
  | valueError
  | zeroDivisionError
  | assertionError
  deriving DecidableEq, Repr

deriving instance DecidableEq for Except

/-- Python division on rationals: raises ZeroDivisionError when the denominator
is zero, otherwise returns the exact quotient. -/
def pydivQ (a b : ℚ) : Except PyErr ℚ :=
  if b = 0 then .error .zeroDivisionError else .ok (a / b)

/-- Python int() applied to a rational: truncation toward zero. -/
def pytrunc (q : ℚ) : ℤ :=
  if 0 ≤ q then ⌊q⌋ else ⌈q⌉

/-- State of LRSchedule after __init__ (llm_pretrain.py lines 75-85): base lr and
the three phase boundaries t1 = int(n_steps * warmup), t2 = int(n_steps * (1 - decay)),
t3 = n_steps, plus the decay_type string. -/
structure LRSchedule where
  lr : ℚ
  t1 : ℤ
  t2 : ℤ
  t3 : ℤ
  decay_type : String
  deriving DecidableEq, Repr

/-- LRSchedule.__init__: computes the boundaries and runs the two asserts
(t1 <= t2, decay_type in ("linear", "cosine")); a failed assert raises. -/
def LRSchedule.init (lr : ℚ) (n_steps : ℕ) (warmup : ℚ := 0) (decay : ℚ := 0)
    (decay_type : String := "linear") : Except PyErr LRSchedule :=
  let t1 := pytrunc ((n_steps : ℚ) * warmup)
  let t2 := pytrunc ((n_steps : ℚ) * (1 - decay))
  if t1 ≤ t2 ∧ (decay_type = "linear" ∨ decay_type = "cosine") then
    .ok ⟨lr, t1, t2, (n_steps : ℤ), decay_type⟩
  else
    .error .assertionError

/-- LRSchedule.get_lr (llm_pretrain.py lines 87-98). The step counter of the
training loop is a natural number. cosPi q models math.cos(q * math.pi). -/
def LRSchedule.get_lr (cosPi : ℚ → ℚ) (s : LRSchedule) (step : ℕ) : Except PyErr ℚ :=
  if (step : ℤ) < s.t1 then
    pydivQ (s.lr * (step : ℚ)) (s.t1 : ℚ)
  else if (step : ℤ) < s.t2 then
    .ok s.lr
  else if (step : ℤ) < s.t3 then
    Except.map
      (fun progress =>
        if s.decay_type = "linear" then s.lr * (1 - progress)
        else if s.decay_type = "cosine" then 2⁻¹ * s.lr * (1 + cosPi progress)
        else 0)
      (pydivQ ((step : ℚ) - (s.t2 : ℚ)) ((s.t3 : ℚ) - (s.t2 : ℚ)))
  else
    .ok 0


/-! ## Shard store and batch streamer (TokenDataset / EvalTokenDataset) -/

/-- tokens_per_batch = batch_size * (seq_len + 1), the length of one contiguous
slice turned into one batch. -/
def toksPerBatch (batch_size seq_len : ℕ) : ℕ := batch_size * (seq_len + 1)

/-- State of TokenDataset after __init__: the sorted shard file list and the
batch geometry. -/
structure TokenDatasetS where
  shards : List String
  batch_size : ℕ
  seq_len : ℕ
  toks_per_batch : ℕ
  deriving DecidableEq, Repr

/-- TokenDataset.__init__ (llm_pretrain.py lines 24-30): shards are the files of
the dataset directory matching *.bin, in sorted order. The body only stores the
fields and prints the shard count: it has no error path, in particular none for
an empty shard list. -/
def TokenDataset.init (dir_files : List String) (batch_size seq_len : ℕ) :
    Except PyErr TokenDatasetS :=
  .ok { shards := (dir_files.filter (fun f => f.endsWith ".bin")).mergeSort (fun a b => a ≤ b),
        batch_size := batch_size,
        seq_len := seq_len,
        toks_per_batch := batch_size * (seq_len + 1) }

/-- shard[idx * toks_per_batch : (idx + 1) * toks_per_batch], the idx-th slice. -/
def shardSlice (tpb : ℕ) (shard : List ℕ) (idx : ℕ) : List ℕ :=
  (shard.drop (idx * tpb)).take tpb

/-- Row i of batch.view(batch_size, seq_len + 1). The view is only ever applied
to full slices of toks_per_batch tokens, where it is exactly this chunking. -/
def sliceRow (seq_len : ℕ) (slice : List ℕ) (i : ℕ) : List ℕ :=
  (slice.drop (i * (seq_len + 1))).take (seq_len + 1)

/-- batch.view(batch_size, seq_len + 1) as a list of rows. -/
def viewRows (batch_size seq_len : ℕ) (slice : List ℕ) : List (List ℕ) :=
  (List.range batch_size).map (sliceRow seq_len slice)

/-- A batch is the pair (tokens, labels) of integer matrices. -/
abbrev Batch := List (List ℕ) × List (List ℕ)

/-- n_slices = floor(shard_tokens / toks_per_batch) (line 33). -/
def nSlices (batch_size seq_len : ℕ) (shard : List ℕ) : ℕ :=
  shard.length / toksPerBatch batch_size seq_len

/-- TokenDataset._iter_shard (lines 32-41) with the slice visiting order passed
explicitly: torch.randperm(n_slices) when shuffle=True, range(n_slices) when
shuffle=False. For each visited slice, tokens = batch[:, :-1] (drop the last
column) and labels = batch[:, 1:] (drop the first column). -/
def iterShard (batch_size seq_len : ℕ) (shard : List ℕ) (slice_indices : List ℕ) :
    List Batch :=
  slice_indices.map (fun idx =>
    let rows := viewRows batch_size seq_len
      (shardSlice (toksPerBatch batch_size seq_len) shard idx)
    (rows.map List.dropLast, rows.map (fun r => r.drop 1)))

/-- Processing of one shard by the training variant TokenDataset.__iter__
(lines 48-56): np.memmap with offset = offset * 2 bytes drops offset leading
uint16 tokens, then _iter_shard runs with shuffle=True, i.e. with a permuted
slice order. The random draws (offset below toks_per_batch, and the
permutation) are passed in as data. -/
def trainShardBatches (batch_size seq_len : ℕ) (shard : List ℕ) (offset : ℕ)
    (slice_order : List ℕ) : List Batch :=
  iterShard batch_size seq_len (shard.drop offset) slice_order

/-- The randomness source available to the process: randperm n models
torch.randperm(n) and randint n models torch.randint(0, n, size=(1,)).item(). -/
structure Rng where
  randperm : ℕ → List ℕ
  randint : ℕ → ℕ

/-- EvalTokenDataset.__iter__ (lines 60-72): shards are visited in index order
(range(len(self.shards))), each opened with no byte offset, and _iter_shard
runs with shuffle=False, i.e. slice order range(n_slices). The rng argument
records that a randomness source is available to the process; this iterator
never consults it. contents maps a shard file name to its token sequence. -/
def evalBatches (ds : TokenDatasetS) (contents : String → List ℕ) (rng : Rng) :
    List Batch :=
  ds.shards.flatMap (fun name =>
    iterShard ds.batch_size ds.seq_len (contents name)
      (List.range (nSlices ds.batch_size ds.seq_len (contents name))))

/-! ## Loss and gradient accumulation (get_loss, training loop lines 193-197) -/

/-- torch.nn.functional.cross_entropy with its default mean reduction: the
average over the target elements of the per-element negative log-likelihood,
here abstracted as nll (one logit row and one target class per element). -/
def cross_entropy (nll : List ℚ → ℕ → ℚ) (logits : List (List ℚ)) (target : List ℕ) : ℚ :=
  (((logits.zip target).map (fun p => nll p.1 p.2)).sum) / (target.length : ℚ)

/-- get_loss (llm_pretrain.py lines 101-103): model(tokens).logits.flatten(0, 1)
merges the batch and position dimensions, labels.view(-1) flattens the labels,
and the result is the mean cross entropy. The language model is external to
this repository and is passed in as the function model, returning one logit row
per (row, position) of the input. -/
def get_loss (model : List (List ℕ) → List (List (List ℚ))) (nll : List ℚ → ℕ → ℚ)
    (tokens labels : List (List ℕ)) : ℚ :=
  cross_entropy nll (model tokens).flatten labels.flatten

/-- The accumulating phase of one optimization step (lines 194-197): the
parameter-gradient buffer starts from zero (optim.zero_grad ended the previous
step) and each of the gradient_accumulation loss.backward() calls adds the
gradient of that sub-step loss into the buffer. V is the additive space of
parameter-gradient assignments and subGrad i the gradient contributed by the
i-th sub-step. No division by the accumulation count appears anywhere. -/
def accumulating_phase {V : Type} [AddCommMonoid V] (g : ℕ) (subGrad : ℕ → V) : V :=
  (List.range g).foldl (fun acc i => acc + subGrad i) 0

/-! ## Quantization configurator (train_utils.py lines 19-34) -/

/-- Configuration record passed to the int8 weight quantizer. Modelled from the
spec: Int8QTConfig is defined in module subclass, which is not part of this
repository snapshot; per the spec it selects, per target, one of full
precision, int8, or int8 with stochastic rounding. -/
structure Int8QTConfig where
  activation : String := "none"
  grad_weight_compute : String := "none"
  deriving DecidableEq, Repr

/-- quantize_model (train_utils.py lines 19-34): dispatch on the quantization
name. The two rewriting functions quantize_linear_weight_int8 and
quantize_linear_weight_int4 come from module subclass, absent from this
repository snapshot; modelled from the spec as in-place, non-raising model
transformations, here abstracted to arguments q8 and q4 over an abstract model
type M. An unrecognized non-None name raises ValueError (the spec taxonomy
calls this ConfigurationError); None means full precision and is a no-op. -/
def quantize_model {M : Type} (q8 : M → Int8QTConfig → M) (q4 : M → M)
    (model : M) (quantization : Option String) : Except PyErr M :=
  if quantization = some "int8" then
    .ok (q8 model {})
  else if quantization = some "int8_activation_int8" then
    .ok (q8 model { activation := "int8" })
  else if quantization = some "int8_activation_int8_sr" then
    .ok (q8 model { activation := "int8_sr" })
  else if quantization = some "int8_activation_int8_grad_weight_int8" then
    .ok (q8 model { activation := "int8", grad_weight_compute := "int8" })
  else if quantization = some "int8_activation_int8_sr_grad_weight_int8_sr" then
    .ok (q8 model { activation := "int8_sr", grad_weight_compute := "int8_sr" })
  else if quantization = some "int4" then
    .ok (q4 model)
  else if quantization ≠ none then
    .error .valueError
  else
    .ok model

/-- The quantization names accepted by quantize_model. -/
def recognizedQuantNames : List String :=
  ["int8", "int8_activation_int8", "int8_activation_int8_sr",
   "int8_activation_int8_grad_weight_int8",
   "int8_activation_int8_sr_grad_weight_int8_sr", "int4"]

/-! ## Evaluation block (llm_pretrain.py lines 238-251) -/

/-- A model as the training loop sees it: its train/eval mode flag and its
parameters, the latter abstracted to a type P. -/
structure ModelState (P : Type) where
  training : Bool
  params : P
  deriving DecidableEq, Repr

/-- The periodic evaluation block (lines 242-251): model.eval(), then under
torch.no_grad() one pass over the eval batches summing the scalar losses and
counting batches, then val_loss = total_loss / n_batches, then model.train().
The mean is Python division: with zero batches it raises ZeroDivisionError,
and since that happens before model.train(), the model is left in eval mode on
that path. No operation in the block writes to the parameters. -/
def evalBlock {P : Type} (lossFn : Batch → P → ℚ) (batches : List Batch)
    (m : ModelState P) : ModelState P × Except PyErr ℚ :=
  let mEval : ModelState P := { m with training := false }
  let total : ℚ := (batches.map (fun b => lossFn b mEval.params)).sum
  match pydivQ total (batches.length : ℚ) with
  | .error e => (mEval, .error e)
  | .ok v => ({ mEval with training := true }, .ok v)

/-! ## Claim theorems -/

/-- C6: the evaluation streamer is deterministic. Over a fixed shard directory
with unchanged contents, the batch sequence it produces does not depend on the
randomness source of the process at all (shards are visited in fixed order,
with no byte-offset randomization and no slice shuffling), so two full passes
yield identical batch sequences in identical order. -/
theorem eval_streamer_deterministic (ds : TokenDatasetS) (contents : String → List ℕ)
    (rng₁ rng₂ : Rng) :
    evalBatches ds contents rng₁ = evalBatches ds contents rng₂ := rfl

/-- C4 counterexample: constructing the shard store over a directory with zero
shard files does not fail: TokenDataset.__init__ returns normally, with an
empty shard list, instead of raising a ConfigurationError. -/
theorem token_dataset_empty_dir_is_ok :
    TokenDataset.init [] 4 2048 = .ok ⟨[], 4, 2048, 8196⟩ ∧
    (TokenDataset.init [] 4 2048).isOk = true := by
  constructor
  · simp [TokenDataset.init]
  · rfl

/-- C4 amended: constructing the shard store over a directory that contains
zero shard files succeeds without raising any error; the resulting dataset
simply records an empty shard list (the training iterator then never yields). -/
theorem token_dataset_zero_shards_accepted (dir_files : List String)
    (batch_size seq_len : ℕ)
    (hempty : dir_files.filter (fun f => f.endsWith ".bin") = []) :
    ∃ ds, TokenDataset.init dir_files batch_size seq_len = .ok ds ∧ ds.shards = [] := by
  refine ⟨_, rfl, ?_⟩
  simp only [hempty, List.mergeSort_nil]

/-- C4 amended, witness at a concrete empty directory. -/
theorem token_dataset_zero_shards_accepted_witness :
    ∃ ds, TokenDataset.init [] 4 2048 = .ok ds ∧ ds.shards = [] :=
  token_dataset_zero_shards_accepted [] 4 2048 (by decide)

/-- C5: a shard holding fewer than toks_per_batch tokens yields zero batches,
in both streamer variants (and the iteration functions are total, so no error
is raised): n_slices = floor(tokens / toks_per_batch) = 0, so the eval slice
order range(0) and any training slice order (a permutation of range(0), after
any memmap offset) are empty. -/
theorem small_shard_yields_no_batches (batch_size seq_len : ℕ) (shard : List ℕ)
    (h : shard.length < toksPerBatch batch_size seq_len) :
    iterShard batch_size seq_len shard
      (List.range (nSlices batch_size seq_len shard)) = [] ∧
    ∀ offset slice_order,
      slice_order.Perm (List.range (nSlices batch_size seq_len (shard.drop offset))) →
      trainShardBatches batch_size seq_len shard offset slice_order = [] := by
  constructor
  · rw [nSlices, Nat.div_eq_of_lt h]
    rfl
  · intro offset slice_order hperm
    have hlt : (shard.drop offset).length < toksPerBatch batch_size seq_len :=
      lt_of_le_of_lt (by rw [List.length_drop]; omega) h
    rw [nSlices, Nat.div_eq_of_lt hlt] at hperm
    have : slice_order = [] := List.Perm.eq_nil hperm
    rw [trainShardBatches, this]
    rfl

/-- C5 witness: a 3-token shard with batch_size 1, seq_len 3 (4 tokens per
batch) yields no batch in either variant. -/
theorem small_shard_yields_no_batches_witness :
    iterShard 1 3 [7, 8, 9] (List.range (nSlices 1 3 [7, 8, 9])) = [] ∧
    trainShardBatches 1 3 [7, 8, 9] 1 [] = [] :=
  ⟨(small_shard_yields_no_batches 1 3 [7, 8, 9] (by decide)).1,
   (small_shard_yields_no_batches 1 3 [7, 8, 9] (by decide)).2 1 [] (by decide)⟩

/-- C8: quantize_model raises (ValueError, the spec taxonomy name for it being
ConfigurationError) exactly on unrecognized non-None quantization names; each
of the six recognized names and the None (full precision) case return
normally, for any underlying rewriting functions. -/
theorem quantize_model_dispatch {M : Type} (q8 : M → Int8QTConfig → M) (q4 : M → M)
    (model : M) :
    (∀ name : String, name ∉ recognizedQuantNames →
      quantize_model q8 q4 model (some name) = .error .valueError) ∧
    (∀ name ∈ recognizedQuantNames,
      (quantize_model q8 q4 model (some name)).isOk = true) ∧
    (quantize_model q8 q4 model none).isOk = true := by
  refine ⟨?_, ?_, ?_⟩
  · intro name hname
    simp only [recognizedQuantNames, List.mem_cons, List.not_mem_nil, or_false,
      not_or] at hname
    obtain ⟨h1, h2, h3, h4, h5, h6⟩ := hname
    simp [quantize_model, h1, h2, h3, h4, h5, h6]
  · intro name hname
    fin_cases hname <;> simp [quantize_model, Except.isOk, Except.toBool]
  · simp [quantize_model, Except.isOk, Except.toBool]

/-- C8 witness: the unrecognized name fp4 raises, while int4 and int8 are
accepted, instantiated with trivial rewriting functions. -/
theorem quantize_model_dispatch_witness :
    quantize_model (fun (m : Unit) _ => m) id () (some "fp4") = .error .valueError ∧
    (quantize_model (fun (m : Unit) _ => m) id () (some "int4")).isOk = true :=
  ⟨(quantize_model_dispatch (fun (m : Unit) _ => m) id ()).1 "fp4" (by decide),
   (quantize_model_dispatch (fun (m : Unit) _ => m) id ()).2.1 "int4" (by decide)⟩

/-- C9 counterexample: started in inference mode, the evaluation block does not
put the model back into inference mode: it unconditionally calls model.train()
at the end, so the mode found on entry is not restored for that starting mode. -/
theorem eval_block_mode_not_restored :
    (evalBlock (fun _ _ => (0 : ℚ)) [([[0]], [[0]])]
        (⟨false, ()⟩ : ModelState Unit)).1.training
      ≠ (⟨false, ()⟩ : ModelState Unit).training := by
  norm_num [evalBlock, pydivQ]

/-- C9 amended: the evaluation block never mutates the parameters, and when it
completes it always leaves the model in training mode; hence the mode is
restored exactly as found when the block is entered in training mode, which is
the only situation arising in the training loop. -/
theorem eval_block_restores_training_mode {P : Type} (lossFn : Batch → P → ℚ)
    (batches : List Batch) (m : ModelState P) :
    (evalBlock lossFn batches m).1.params = m.params ∧
    ((evalBlock lossFn batches m).2.isOk = true →
      (evalBlock lossFn batches m).1.training = true) ∧
    (m.training = true → (evalBlock lossFn batches m).2.isOk = true →
      (evalBlock lossFn batches m).1.training = m.training) := by
  simp only [evalBlock]
  rcases hres : pydivQ ((batches.map (fun b => lossFn b m.params)).sum)
      (batches.length : ℚ) with e | v
  · refine ⟨rfl, ?_, ?_⟩
    · intro hok
      simp [Except.isOk, Except.toBool] at hok
    · intro _ hok
      simp [Except.isOk, Except.toBool] at hok
  · exact ⟨rfl, fun _ => rfl, fun hm _ => by rw [hm]⟩

/-- C9 amended, witness: entered in training mode on one batch, the block ends
in training mode and with the parameters untouched. -/
theorem eval_block_restores_training_mode_witness :
    (evalBlock (fun _ _ => (0 : ℚ)) [([[0]], [[0]])]
        (⟨true, ()⟩ : ModelState Unit)).1.training
      = (⟨true, ()⟩ : ModelState Unit).training ∧
    (evalBlock (fun _ _ => (0 : ℚ)) [([[0]], [[0]])]
        (⟨true, ()⟩ : ModelState Unit)).1.params = () :=
  ⟨(eval_block_restores_training_mode (fun _ _ => (0 : ℚ)) [([[0]], [[0]])]
        ⟨true, ()⟩).2.2 rfl (by norm_num [evalBlock, pydivQ, Except.isOk, Except.toBool]),
   (eval_block_restores_training_mode (fun _ _ => (0 : ℚ)) [([[0]], [[0]])]
        ⟨true, ()⟩).1⟩

/-- C10: when every shard of the eval directory has fewer than toks_per_batch
tokens (an empty directory is the vacuous case), the evaluation stream yields
zero batches and the evaluation block fails with ZeroDivisionError when it
computes the mean loss total_loss / n_batches. -/
theorem eval_zero_batches_division_error {P : Type} (ds : TokenDatasetS)
    (contents : String → List ℕ) (rng : Rng) (lossFn : Batch → P → ℚ)
    (m : ModelState P)
    (h : ∀ name ∈ ds.shards,
      (contents name).length < toksPerBatch ds.batch_size ds.seq_len) :
    evalBatches ds contents rng = [] ∧
    (evalBlock lossFn (evalBatches ds contents rng) m).2
      = .error .zeroDivisionError := by
  have hempty : evalBatches ds contents rng = [] := by
    rw [evalBatches, List.flatMap_eq_nil_iff]
    intro name hname
    rw [nSlices, Nat.div_eq_of_lt (h name hname)]
    rfl
  refine ⟨hempty, ?_⟩
  rw [hempty]
  norm_num [evalBlock, pydivQ]

/-- C10 witness: one 2-token shard with batch_size 1, seq_len 3 (4 tokens per
batch) gives an empty eval stream and a ZeroDivisionError mean. -/
theorem eval_zero_batches_division_error_witness :
    evalBatches ⟨["a.bin"], 1, 3, 4⟩ (fun _ => [5, 6]) ⟨fun n => List.range n, fun _ => 0⟩ = [] ∧
    (evalBlock (fun _ _ => (0 : ℚ))
        (evalBatches ⟨["a.bin"], 1, 3, 4⟩ (fun _ => [5, 6]) ⟨fun n => List.range n, fun _ => 0⟩)
        (⟨true, ()⟩ : ModelState Unit)).2 = .error .zeroDivisionError :=
  eval_zero_batches_division_error ⟨["a.bin"], 1, 3, 4⟩ (fun _ => [5, 6])
    ⟨fun n => List.range n, fun _ => 0⟩ (fun _ _ => (0 : ℚ)) ⟨true, ()⟩ (by decide)

/-- C7: when t1 = 0 (no warmup), the warmup branch step < t1 is unreachable
for the nonnegative step counter, so get_lr returns base_lr immediately on all
of [0, t2) and no division by t1 (nor any other division failure) ever occurs,
at any nonnegative step and for any decay type. -/
theorem no_warmup_get_lr_safe (cosPi : ℚ → ℚ) (s : LRSchedule) (h : s.t1 = 0) :
    (∀ step : ℕ, (step : ℤ) < s.t2 → s.get_lr cosPi step = .ok s.lr) ∧
    (∀ step : ℕ, (s.get_lr cosPi step).isOk = true) := by
  have hnot : ∀ step : ℕ, ¬ ((step : ℤ) < s.t1) := by
    intro step
    rw [h]
    exact Int.not_lt.mpr (Int.natCast_nonneg step)
  constructor
  · intro step hstep
    rw [LRSchedule.get_lr, if_neg (hnot step), if_pos hstep]
  · intro step
    rw [LRSchedule.get_lr, if_neg (hnot step)]
    by_cases h2 : (step : ℤ) < s.t2
    · rw [if_pos h2]; rfl
    · rw [if_neg h2]
      by_cases h3 : (step : ℤ) < s.t3
      · rw [if_pos h3]
        have ht2t3 : s.t2 < s.t3 := lt_of_le_of_lt (Int.not_lt.mp h2) h3
        have hdenom : ((s.t3 : ℚ) - (s.t2 : ℚ)) ≠ 0 := by
          rw [sub_ne_zero]
          exact_mod_cast ht2t3.ne.symm
        rw [pydivQ, if_neg hdenom]
        rfl
      · rw [if_neg h3]; rfl

/-- C7 witness: a schedule with t1 = 0 returns base_lr at step 3 of the
constant phase and get_lr succeeds at step 12, past total_steps. -/
theorem no_warmup_get_lr_safe_witness :
    LRSchedule.get_lr (fun _ => 0) ⟨1, 0, 7, 10, "linear"⟩ 3 = .ok 1 ∧
    (LRSchedule.get_lr (fun _ => 0) ⟨1, 0, 7, 10, "linear"⟩ 12).isOk = true :=
  ⟨(no_warmup_get_lr_safe (fun _ => 0) ⟨1, 0, 7, 10, "linear"⟩ rfl).1 3 (by decide),
   (no_warmup_get_lr_safe (fun _ => 0) ⟨1, 0, 7, 10, "linear"⟩ rfl).2 12⟩

/-- C2: for every valid construction (warmup and decay fractions nonnegative
with sum at most 1, positive total_steps, a recognized decay type), the
schedule starts at 0 when there is a warmup phase, holds base_lr on the whole
constant phase [t1, t2), and is back to 0 at step total_steps. -/
theorem lr_schedule_phase_values (cosPi : ℚ → ℚ) (lr : ℚ) (n : ℕ) (w d : ℚ)
    (dt : String) (hn : 0 < n) (hw : 0 ≤ w) (hd : 0 ≤ d) (hwd : w + d ≤ 1)
    (s : LRSchedule) (hinit : LRSchedule.init lr n w d dt = .ok s) :
    (0 < s.t1 → s.get_lr cosPi 0 = .ok 0) ∧
    (∀ step : ℕ, s.t1 ≤ (step : ℤ) → (step : ℤ) < s.t2 →
      s.get_lr cosPi step = .ok s.lr) ∧
    s.get_lr cosPi n = .ok 0 := by
  simp only [LRSchedule.init] at hinit
  split_ifs at hinit with hcond
  · injection hinit with hs
    subst hs
    have hnq : (0 : ℚ) ≤ (n : ℚ) := by positivity
    have hq1 : 0 ≤ (n : ℚ) * w := mul_nonneg hnq hw
    have hq2 : 0 ≤ (n : ℚ) * (1 - d) := mul_nonneg hnq (by linarith)
    have hT1 : pytrunc ((n : ℚ) * w) = ⌊(n : ℚ) * w⌋ := if_pos hq1
    have hT2 : pytrunc ((n : ℚ) * (1 - d)) = ⌊(n : ℚ) * (1 - d)⌋ := if_pos hq2
    have hT1n : pytrunc ((n : ℚ) * w) ≤ (n : ℤ) := by
      rw [hT1]
      calc ⌊(n : ℚ) * w⌋ ≤ ⌊(n : ℚ)⌋ := Int.floor_le_floor (by nlinarith)
      _ = (n : ℤ) := Int.floor_natCast n
    have hT2n : pytrunc ((n : ℚ) * (1 - d)) ≤ (n : ℤ) := by
      rw [hT2]
      calc ⌊(n : ℚ) * (1 - d)⌋ ≤ ⌊(n : ℚ)⌋ := Int.floor_le_floor (by nlinarith)
      _ = (n : ℤ) := Int.floor_natCast n
    refine ⟨?_, ?_, ?_⟩
    · intro hpos
      have hc : ((0 : ℕ) : ℤ) < pytrunc ((n : ℚ) * w) := by exact_mod_cast hpos
      have hden : ((pytrunc ((n : ℚ) * w) : ℤ) : ℚ) ≠ 0 := by
        have : (0 : ℤ) < pytrunc ((n : ℚ) * w) := hpos
        exact_mod_cast this.ne.symm
      rw [LRSchedule.get_lr]
      simp only [if_pos hc]
      rw [pydivQ, if_neg hden]
      norm_num
    · intro step hstep1 hstep2
      rw [LRSchedule.get_lr, if_neg (Int.not_lt.mpr hstep1), if_pos hstep2]
    · have hc1 : ¬ ((n : ℤ) < pytrunc ((n : ℚ) * w)) := Int.not_lt.mpr hT1n
      have hc2 : ¬ ((n : ℤ) < pytrunc ((n : ℚ) * (1 - d))) := Int.not_lt.mpr hT2n
      have hc3 : ¬ ((n : ℤ) < (n : ℤ)) := lt_irrefl _
      rw [LRSchedule.get_lr, if_neg hc1, if_neg hc2, if_neg hc3]

/-- C2 witness: base_lr 1, 10 steps, warmup fraction 1/5, decay fraction 3/10:
t1 = 2, t2 = 7, and lr is 0 at step 0, 1 at step 4, 0 at step 10. -/
theorem lr_schedule_phase_values_witness :
    LRSchedule.get_lr (fun _ => 0) ⟨1, 2, 7, 10, "linear"⟩ 0 = .ok 0 ∧
    LRSchedule.get_lr (fun _ => 0) ⟨1, 2, 7, 10, "linear"⟩ 4 = .ok 1 ∧
    LRSchedule.get_lr (fun _ => 0) ⟨1, 2, 7, 10, "linear"⟩ 10 = .ok 0 :=
  ⟨(lr_schedule_phase_values (fun _ => 0) 1 10 (1/5) (3/10) "linear" (by decide)
      (by norm_num) (by norm_num) (by norm_num) ⟨1, 2, 7, 10, "linear"⟩
      (by norm_num [LRSchedule.init, pytrunc])).1 (by decide),
   (lr_schedule_phase_values (fun _ => 0) 1 10 (1/5) (3/10) "linear"
      (by decide) (by norm_num) (by norm_num) (by norm_num) ⟨1, 2, 7, 10, "linear"⟩
      (by norm_num [LRSchedule.init, pytrunc])).2.1 4 (by decide) (by decide),
   (lr_schedule_phase_values (fun _ => 0) 1 10 (1/5) (3/10) "linear" (by decide)
      (by norm_num) (by norm_num) (by norm_num) ⟨1, 2, 7, 10, "linear"⟩
      (by norm_num [LRSchedule.init, pytrunc])).2.2⟩

/-- Folding additions of subGrad over range g from 0 is the plain sum of the
per-sub-step gradients. -/
theorem accumulating_phase_eq_sum {V : Type} [AddCommMonoid V] (g : ℕ)
    (subGrad : ℕ → V) :
    accumulating_phase g subGrad = ∑ i in Finset.range g, subGrad i := by
  induction g with
  | zero => rfl
  | succ k ih =>
    rw [accumulating_phase, List.range_succ, List.foldl_append,
      Finset.sum_range_succ, ← ih]
    rfl

/-- C1: in the accumulating phase, each sub-step loss is the mean token-level
cross entropy of its batch — the sum over the batch_size * seq_len token
positions of the per-token negative log-likelihood, divided by
batch_size * seq_len — and the g backward passes add the per-sub-step
gradients into the parameter gradients with no division by g of either the
losses or the accumulated gradients. -/
theorem accumulation_sums_unscaled_mean_loss_gradients {V : Type}
    [AddCommMonoid V] (g batch_size seq_len : ℕ) (hg : 1 ≤ g) (subGrad : ℕ → V)
    (model : List (List ℕ) → List (List (List ℚ))) (nll : List ℚ → ℕ → ℚ)
    (tokens labels : ℕ → List (List ℕ))
    (hrows : ∀ i, i < g → (labels i).length = batch_size)
    (hcols : ∀ i, i < g → ∀ r ∈ labels i, r.length = seq_len) :
    accumulating_phase g subGrad = ∑ i in Finset.range g, subGrad i ∧
    ∀ i, i < g → get_loss model nll (tokens i) (labels i) =
      ((((model (tokens i)).flatten.zip (labels i).flatten).map
        (fun p => nll p.1 p.2)).sum) / ((batch_size * seq_len : ℕ) : ℚ) := by
  refine ⟨accumulating_phase_eq_sum g subGrad, ?_⟩
  intro i hi
  rw [get_loss, cross_entropy]
  congr 1
  have hmap : (labels i).map List.length = List.replicate batch_size seq_len := by
    rw [← hrows i hi,
      show (labels i).length = ((labels i).map List.length).length by simp]
    apply List.eq_replicate_of_mem
    intro b hb
    obtain ⟨r, hr, rfl⟩ := List.mem_map.mp hb
    exact hcols i hi r hr
  rw [List.length_flatten, hmap, List.sum_replicate, smul_eq_mul]

/-- C1 witness: two sub-steps with integer gradient vectors 1 and 2 accumulate
to their plain sum 1 + 2, and the loss of sub-step 0 on a 1 x 2 batch is the
per-token nll sum divided by 1 * 2. -/
theorem accumulation_sums_unscaled_mean_loss_gradients_witness :
    accumulating_phase 2 (fun i => (i : ℤ) + 1) =
      ∑ i in Finset.range 2, ((i : ℤ) + 1) ∧
    get_loss (fun _ => [[[(0 : ℚ)], [0]]]) (fun _ _ => (3 : ℚ)) [[1, 2]] [[5, 6]] =
      (((([[[(0 : ℚ)], [0]]] : List (List (List ℚ))).flatten.zip
          ([[5, 6]] : List (List ℕ)).flatten).map (fun _ => (3 : ℚ))).sum)
        / ((1 * 2 : ℕ) : ℚ) :=
  ⟨(@accumulation_sums_unscaled_mean_loss_gradients ℤ _ 2 1 2 (by decide)
      (fun i => (i : ℤ) + 1) (fun _ => [[[(0 : ℚ)], [0]]]) (fun _ _ => (3 : ℚ))
      (fun _ => [[1, 2]]) (fun _ => [[5, 6]]) (fun _ _ => rfl)
      (fun _ _ r hr => by rw [List.mem_singleton.mp hr]; rfl)).1,
   (@accumulation_sums_unscaled_mean_loss_gradients ℤ _ 2 1 2 (by decide)
      (fun i => (i : ℤ) + 1) (fun _ => [[[(0 : ℚ)], [0]]]) (fun _ _ => (3 : ℚ))
      (fun _ => [[1, 2]]) (fun _ => [[5, 6]]) (fun _ _ => rfl)
      (fun _ _ r hr => by rw [List.mem_singleton.mp hr]; rfl)).2 0 (by decide)⟩

/-- C3: every batch produced by either streamer variant (any slice order whose
indices are in range, covering the shuffled training order and the sequential
eval order) satisfies: row i of labels is row i of tokens shifted left by one
inside the same (seq_len + 1)-token row of the original contiguous slice, and
appending the last element of labels row i to tokens row i reconstructs that
original row exactly. -/
theorem labels_shift_reconstruction (batch_size seq_len : ℕ) (hL : 1 ≤ seq_len)
    (shard : List ℕ) (slice_indices : List ℕ)
    (hidx : ∀ idx ∈ slice_indices, idx < nSlices batch_size seq_len shard)
    (tl : Batch) (htl : tl ∈ iterShard batch_size seq_len shard slice_indices)
    (i : ℕ) (hi : i < batch_size) :
    ∃ idx ∈ slice_indices, ∃ row : List ℕ,
      row = sliceRow seq_len (shardSlice (toksPerBatch batch_size seq_len) shard idx) i ∧
      row.length = seq_len + 1 ∧
      tl.1[i]? = some row.dropLast ∧
      tl.2[i]? = some (row.drop 1) ∧
      (∀ j, j + 1 < seq_len → (row.drop 1)[j]? = (row.dropLast)[j + 1]?) ∧
      ∃ x, (row.drop 1).getLast? = some x ∧ row.dropLast ++ [x] = row := by
  rw [iterShard] at htl
  obtain ⟨idx, hmem, heq⟩ := List.mem_map.mp htl
  subst heq
  have hlt : idx < nSlices batch_size seq_len shard := hidx idx hmem
  have htpb : idx * toksPerBatch batch_size seq_len + toksPerBatch batch_size seq_len
      ≤ shard.length := by
    have h1 : idx + 1 ≤ shard.length / toksPerBatch batch_size seq_len :=
      Nat.succ_le_of_lt hlt
    have h2 : (idx + 1) * toksPerBatch batch_size seq_len
        ≤ (shard.length / toksPerBatch batch_size seq_len)
            * toksPerBatch batch_size seq_len :=
      Nat.mul_le_mul_right _ h1
    have h3 : (shard.length / toksPerBatch batch_size seq_len)
        * toksPerBatch batch_size seq_len ≤ shard.length :=
      Nat.div_mul_le_self _ _
    rw [Nat.succ_mul] at h2
    omega
  have hslice_len : (shardSlice (toksPerBatch batch_size seq_len) shard idx).length
      = toksPerBatch batch_size seq_len := by
    rw [shardSlice, List.length_take, List.length_drop]
    omega
  have hrow_len : (sliceRow seq_len
      (shardSlice (toksPerBatch batch_size seq_len) shard idx) i).length
      = seq_len + 1 := by
    rw [sliceRow, List.length_take, List.length_drop, hslice_len]
    have h4 : (i + 1) * (seq_len + 1) ≤ toksPerBatch batch_size seq_len :=
      Nat.mul_le_mul_right _ (Nat.succ_le_of_lt hi)
    rw [Nat.succ_mul] at h4
    omega
  refine ⟨idx, hmem,
    sliceRow seq_len (shardSlice (toksPerBatch batch_size seq_len) shard idx) i,
    rfl, hrow_len, ?_, ?_, ?_, ?_⟩
  · simp [viewRows, List.getElem?_map, List.getElem?_range, hi]
  · simp [viewRows, List.getElem?_map, List.getElem?_range, hi]
  · intro j hj
    rw [List.getElem?_drop, List.dropLast_eq_take, hrow_len]
    simp only [Nat.add_sub_cancel]
    rw [show (1 + j) = (j + 1) from Nat.add_comm 1 j]
    simp [List.getElem?_take, hj]
  · have hne : sliceRow seq_len
        (shardSlice (toksPerBatch batch_size seq_len) shard idx) i ≠ [] := by
      intro hcon
      rw [hcon] at hrow_len
      simp at hrow_len
    refine ⟨_, ?_, List.dropLast_append_getLast hne⟩
    rw [List.getLast?_eq_getElem?, List.length_drop, hrow_len,
      Nat.add_sub_cancel, List.getElem?_drop]
    have h5 : 1 + (seq_len - 1) = seq_len := by omega
    rw [h5]
    have h6 : seq_len < (sliceRow seq_len
        (shardSlice (toksPerBatch batch_size seq_len) shard idx) i).length := by
      rw [hrow_len]; omega
    rw [List.getElem?_eq_getElem h6]
    congr 1
    rw [List.getLast_eq_getElem]
    congr 1
    omega

/-- C3 witness: shard 0..5 with batch_size 2, seq_len 2 produces the batch
(tokens [[0,1],[3,4]], labels [[1,2],[4,5]]); row 0 satisfies the shift and
reconstruction properties. -/
theorem labels_shift_reconstruction_witness :
    ∃ idx ∈ [0], ∃ row : List ℕ,
      row = sliceRow 2 (shardSlice (toksPerBatch 2 2) [0, 1, 2, 3, 4, 5] idx) 0 ∧
      row.length = 2 + 1 ∧
      (([[0, 1], [3, 4]], [[1, 2], [4, 5]]) : Batch).1[0]? = some row.dropLast ∧
      (([[0, 1], [3, 4]], [[1, 2], [4, 5]]) : Batch).2[0]? = some (row.drop 1) ∧
      (∀ j, j + 1 < 2 → (row.drop 1)[j]? = (row.dropLast)[j + 1]?) ∧
      ∃ x, (row.drop 1).getLast? = some x ∧ row.dropLast ++ [x] = row :=
  labels_shift_reconstruction 2 2 (by decide) [0, 1, 2, 3, 4, 5] [0] (by decide)
    ([[0, 1], [3, 4]], [[1, 2], [4, 5]]) (by decide) 0 (by decide)
